import Mathlib

/-!
Verification of the URL redirect checker (`src/index.js`).

The development shallowly embeds the program's core: the Validity Policy
(`isRedirectValid`), the Redirect Resolver (`checkURL`), the Header Fetcher's
retry loop (`getHeaders`), the Batch Scheduler (`processUrls`), the CSV data
gate (`getData`) and the final report sort from `main`.  Network activity is
modelled by oracle functions passed in as parameters; JavaScript truthiness on
the CSV cells is modelled explicitly.
-/

namespace RedirectChecker

/-- Configuration constant `CONFIG.MAX_REDIRECTIONS`. -/
def MAX_REDIRECTIONS : Nat := 3

/-- Configuration constant `CONFIG.MAX_RETRIES`. -/
def MAX_RETRIES : Nat := 3

/-- Configuration constant `CONFIG.INITIAL_BACKOFF` (milliseconds). -/
def INITIAL_BACKOFF : Nat := 1000

/-- Configuration constant `CONFIG.CHUNK_SIZE`. -/
def CHUNK_SIZE : Nat := 8

/-- Configuration constant `CONFIG.VALID_STATUS_CODES.PERMANENT_REDIRECT`. -/
def PERMANENT_REDIRECT : List Nat := [301, 308]

/-- One entry of `redirectsList`: `{location, code}` pushed per followed hop. -/
structure RedirectHop where
  location : String
  code : Nat
  deriving Repr, DecidableEq

/-- Result of one `getHeaders` call: `{statusCode, location}` where
`location` is `res.headers.location || null`. -/
structure HopResult where
  statusCode : Nat
  location : Option String
  deriving Repr, DecidableEq

/-- The object `checkURL` resolves with. -/
structure Outcome where
  code : Nat
  source : String
  dest_wanted : String
  dest_actual : String
  redirectCounter : Nat
  redirectsList : List RedirectHop
  is_valid : Bool
  deriving Repr, DecidableEq

/-- `isRedirectValid(currentUrl, targetUrl, redirectsList, redirectCount,
finalStatusCode)` from `src/index.js`: final URL equals target, exactly one
redirection, first hop's code is `PERMANENT_REDIRECT[0]` (301) or
`PERMANENT_REDIRECT[1]` (308), and the final status code is 200.
`redirectsList[0]?.code` is modelled by `List.head?`. -/
def isRedirectValid (currentUrl targetUrl : String) (redirectsList : List RedirectHop)
    (redirectCount : Nat) (finalStatusCode : Nat) : Bool :=
  decide (currentUrl = targetUrl) &&
  decide (redirectCount = 1) &&
  (match redirectsList.head? with
   | some hop =>
       decide (hop.code = PERMANENT_REDIRECT.getD 0 0) ||
       decide (hop.code = PERMANENT_REDIRECT.getD 1 0)
   | none => false) &&
  decide (finalStatusCode = 200)

end RedirectChecker

namespace RedirectChecker

/-- Errors a fetch can reject with: URL parse failure (`new URL` throws) or a
network error carrying the Node error code string. -/
inductive FetchError where
  | malformed : FetchError
  | network (code : String) : FetchError
  deriving Repr, DecidableEq

/-- The recursive `check` closure inside `checkURL`.  The first explicit
argument after the configuration is the `headers` value of the previous
response: `none` on the initial call, `some hop` when the previous response
carried a `Location` (the only case in which `check(headers)` is re-invoked).
`redirectionsList`/`redirectionsCount` are the closure variables, passed
explicitly; the push/increment of the source happens on entry, and the
hop-limit guard (`headers !== null && redirectionsCount >= maxRedirections`)
is checked before any further fetch. -/
def check (fetch : String → Except FetchError HopResult) (src dest_wanted : String)
    (maxRedirections : Nat) :
    Option RedirectHop → List RedirectHop → Nat → Except FetchError Outcome
  | none, redirectionsList, redirectionsCount =>
    (match fetch src with
     | .error e => .error e
     | .ok headers =>
       match headers.location with
       | some loc =>
           check fetch src dest_wanted maxRedirections
             (some ⟨loc, headers.statusCode⟩) redirectionsList redirectionsCount
       | none => .ok {
           code := headers.statusCode
           source := src
           dest_wanted := dest_wanted
           dest_actual := src
           redirectCounter := redirectionsCount
           redirectsList := redirectionsList
           is_valid := isRedirectValid src dest_wanted redirectionsList
             redirectionsCount headers.statusCode })
  | some prev, redirectionsList, redirectionsCount =>
    let lst := redirectionsList ++ [prev]
    let cnt := redirectionsCount + 1
    if _h : cnt ≥ maxRedirections then
      .ok { code := prev.code
            source := src
            dest_wanted := dest_wanted
            dest_actual := prev.location
            redirectCounter := cnt
            redirectsList := lst
            is_valid := false }
    else
      match fetch prev.location with
      | .error e => .error e
      | .ok headers =>
        match headers.location with
        | some loc =>
            check fetch src dest_wanted maxRedirections
              (some ⟨loc, headers.statusCode⟩) lst cnt
        | none => .ok {
            code := headers.statusCode
            source := src
            dest_wanted := dest_wanted
            dest_actual := prev.location
            redirectCounter := cnt
            redirectsList := lst
            is_valid := isRedirectValid prev.location dest_wanted lst cnt
              headers.statusCode }
termination_by headers _ cnt =>
  maxRedirections + 1 - cnt + (match headers with | none => 1 | some _ => 0)
decreasing_by
  · omega
  · omega

/-- `checkURL(src, dest_wanted, maxRedirections)`: run the `check` closure from
the initial state (`headers = null`, empty list, zero count). -/
def checkURL (fetch : String → Except FetchError HopResult) (src dest_wanted : String)
    (maxRedirections : Nat) : Except FetchError Outcome :=
  check fetch src dest_wanted maxRedirections none [] 0

/-- The fields `getHeaders` extracts from `new URL(urlToParse)` to build the
request options. -/
structure ParsedURL where
  protocol : String
  hostname : String
  pathname : String
  search : String
  deriving Repr, DecidableEq

/-- Result of one raw request attempt: either a response (status code and
optional `Location`) or a request error carrying the Node error code string. -/
inductive ReqResult where
  | ok (res : HopResult)
  | err (code : String)
  deriving Repr, DecidableEq

/-- The transient-error test from the retry guard:
`error.code === "ENOMEM" || error.code === "ECONNRESET"`. -/
def isTransient (code : String) : Bool :=
  decide (code = "ENOMEM") || decide (code = "ECONNRESET")

/-- `getHeaders(urlToParse, retryCount)`.  `parseURL` is the oracle for
`new URL` (`none` models a throw), `net k` the oracle for the raw request
issued with retry counter `k`.  The first component is the settled value of
the promise; the second is the list of backoff waits performed, in order
(`CONFIG.INITIAL_BACKOFF * Math.pow(2, retryCount)` before each retry). -/
def getHeaders (parseURL : String → Option ParsedURL) (net : Nat → ReqResult)
    (maxRetries initialBackoff : Nat) (urlToParse : String) (retryCount : Nat) :
    Except FetchError HopResult × List Nat :=
  match parseURL urlToParse with
  | none => (Except.error FetchError.malformed, [])
  | some _ =>
    match net retryCount with
    | ReqResult.ok res => (Except.ok res, [])
    | ReqResult.err code =>
      if _h : isTransient code = true ∧ retryCount < maxRetries then
        ((getHeaders parseURL net maxRetries initialBackoff urlToParse (retryCount + 1)).1,
          initialBackoff * 2 ^ retryCount ::
            (getHeaders parseURL net maxRetries initialBackoff urlToParse (retryCount + 1)).2)
      else
        (Except.error (FetchError.network code), [])
termination_by maxRetries - retryCount
decreasing_by
  all_goals omega

/-- Unfolding: an unparseable URL rejects at once, with no backoff. -/
theorem getHeaders_parse_fail (parseURL : String → Option ParsedURL)
    (net : Nat → ReqResult) (maxRetries initialBackoff : Nat) (url : String)
    (retryCount : Nat) (hbad : parseURL url = none) :
    getHeaders parseURL net maxRetries initialBackoff url retryCount
      = (Except.error FetchError.malformed, []) := by
  unfold getHeaders
  rw [hbad]

/-- Unfolding: a successful attempt resolves with the response, no backoff. -/
theorem getHeaders_net_ok (parseURL : String → Option ParsedURL)
    (net : Nat → ReqResult) (maxRetries initialBackoff : Nat) (url : String)
    (retryCount : Nat) (p : ParsedURL) (res : HopResult)
    (hp : parseURL url = some p) (hnet : net retryCount = ReqResult.ok res) :
    getHeaders parseURL net maxRetries initialBackoff url retryCount
      = (Except.ok res, []) := by
  unfold getHeaders
  rw [hp, hnet]

/-- Unfolding: a transient failure below the retry budget waits
`initialBackoff * 2 ^ retryCount` and retries the identical request. -/
theorem getHeaders_retry_step (parseURL : String → Option ParsedURL)
    (net : Nat → ReqResult) (maxRetries initialBackoff : Nat) (url : String)
    (retryCount : Nat) (p : ParsedURL) (code : String)
    (hp : parseURL url = some p) (hnet : net retryCount = ReqResult.err code)
    (ht : isTransient code = true) (hr : retryCount < maxRetries) :
    getHeaders parseURL net maxRetries initialBackoff url retryCount
      = ((getHeaders parseURL net maxRetries initialBackoff url (retryCount + 1)).1,
          initialBackoff * 2 ^ retryCount ::
            (getHeaders parseURL net maxRetries initialBackoff url (retryCount + 1)).2) := by
  conv_lhs => rw [getHeaders.eq_1]
  simp only [hp, hnet]
  rw [dif_pos ⟨ht, hr⟩]

/-- Unfolding: a non-transient failure, or one past the retry budget, rejects
with the network error, with no further backoff. -/
theorem getHeaders_giveup (parseURL : String → Option ParsedURL)
    (net : Nat → ReqResult) (maxRetries initialBackoff : Nat) (url : String)
    (retryCount : Nat) (p : ParsedURL) (code : String)
    (hp : parseURL url = some p) (hnet : net retryCount = ReqResult.err code)
    (hcond : ¬(isTransient code = true ∧ retryCount < maxRetries)) :
    getHeaders parseURL net maxRetries initialBackoff url retryCount
      = (Except.error (FetchError.network code), []) := by
  unfold getHeaders
  simp only [hp, hnet]
  rw [dif_neg hcond]

/-- Success path of the retry loop: transient failures at attempts
`r, …, n-1`, then a success at attempt `n` within the budget, resolve with the
successful response and the backoff waits `initialBackoff * 2 ^ k` for each
failed attempt `k`. -/
theorem getHeaders_transient_then_ok
    (parseURL : String → Option ParsedURL) (net : Nat → ReqResult)
    (maxRetries initialBackoff : Nat) (url : String) (p : ParsedURL)
    (hp : parseURL url = some p) (n : Nat) (res : HopResult)
    (hn : n ≤ maxRetries)
    (hfail : ∀ k, k < n → ∃ code, net k = ReqResult.err code ∧ isTransient code = true)
    (hsucc : net n = ReqResult.ok res) :
    ∀ r, r ≤ n →
      getHeaders parseURL net maxRetries initialBackoff url r
        = (Except.ok res, (List.range' r (n - r)).map fun k => initialBackoff * 2 ^ k) := by
  suffices h : ∀ m r, r ≤ n → n - r = m →
      getHeaders parseURL net maxRetries initialBackoff url r
        = (Except.ok res, (List.range' r (n - r)).map fun k => initialBackoff * 2 ^ k) by
    intro r hr
    exact h (n - r) r hr rfl
  intro m
  induction m with
  | zero =>
    intro r hr hm
    have : r = n := by omega
    subst this
    rw [getHeaders_net_ok parseURL net maxRetries initialBackoff url r p res hp hsucc]
    simp [hm]
  | succ m ih =>
    intro r hr hm
    obtain ⟨code, hc, htr⟩ := hfail r (by omega)
    rw [getHeaders_retry_step parseURL net maxRetries initialBackoff url r p code hp hc htr
      (by omega)]
    rw [ih (r + 1) (by omega) (by omega)]
    have : n - r = (n - (r + 1)) + 1 := by omega
    rw [this, List.range'_succ]
    simp

/-- Failure path of the retry loop: if every attempt up to and including the
budget fails transiently, the loop retries through the whole budget and then
rejects with the network error of the last attempt, having waited
`initialBackoff * 2 ^ k` after each failed attempt `k < maxRetries`. -/
theorem getHeaders_all_transient_err
    (parseURL : String → Option ParsedURL) (net : Nat → ReqResult)
    (maxRetries initialBackoff : Nat) (url : String) (p : ParsedURL)
    (hp : parseURL url = some p) (codes : Nat → String)
    (hfail : ∀ k, k ≤ maxRetries →
      net k = ReqResult.err (codes k) ∧ isTransient (codes k) = true) :
    ∀ r, r ≤ maxRetries →
      getHeaders parseURL net maxRetries initialBackoff url r
        = (Except.error (FetchError.network (codes maxRetries)),
           (List.range' r (maxRetries - r)).map fun k => initialBackoff * 2 ^ k) := by
  suffices h : ∀ m r, r ≤ maxRetries → maxRetries - r = m →
      getHeaders parseURL net maxRetries initialBackoff url r
        = (Except.error (FetchError.network (codes maxRetries)),
           (List.range' r (maxRetries - r)).map fun k => initialBackoff * 2 ^ k) by
    intro r hr
    exact h (maxRetries - r) r hr rfl
  intro m
  induction m with
  | zero =>
    intro r hr hm
    obtain ⟨hc, htr⟩ := hfail r hr
    have hrm : maxRetries = r := by omega
    rw [getHeaders_giveup parseURL net maxRetries initialBackoff url r p (codes r) hp hc
      (by intro hcontra; omega)]
    rw [hrm]
    simp
  | succ m ih =>
    intro r hr hm
    obtain ⟨hc, htr⟩ := hfail r (by omega)
    rw [getHeaders_retry_step parseURL net maxRetries initialBackoff url r p (codes r) hp hc htr
      (by omega)]
    rw [ih (r + 1) (by omega) (by omega)]
    have : maxRetries - r = (maxRetries - (r + 1)) + 1 := by omega
    rw [this, List.range'_succ]
    simp

/-- C3: for a parseable URL, (i) a fetch whose attempts fail transiently up to
attempt `n - 1` within the budget and succeed at attempt `n` resolves with the
successful response, no error surfaced, after waits of exactly
`initialBackoff * 2 ^ k` before each retry; (ii) attempts that all fail
transiently through the whole budget perform exactly `maxRetries` retries and
then reject with the network error; (iii) a non-transient failure rejects at
once with no retry and no backoff. -/
theorem C3_retry_backoff
    (parseURL : String → Option ParsedURL) (url : String) (p : ParsedURL)
    (hp : parseURL url = some p) (maxRetries initialBackoff : Nat) :
    (∀ (net : Nat → ReqResult) (n : Nat) (res : HopResult), n ≤ maxRetries →
      (∀ k, k < n → ∃ code, net k = ReqResult.err code ∧ isTransient code = true) →
      net n = ReqResult.ok res →
      getHeaders parseURL net maxRetries initialBackoff url 0
        = (Except.ok res, (List.range n).map fun k => initialBackoff * 2 ^ k)) ∧
    (∀ (net : Nat → ReqResult) (codes : Nat → String),
      (∀ k, k ≤ maxRetries →
        net k = ReqResult.err (codes k) ∧ isTransient (codes k) = true) →
      getHeaders parseURL net maxRetries initialBackoff url 0
        = (Except.error (FetchError.network (codes maxRetries)),
           (List.range maxRetries).map fun k => initialBackoff * 2 ^ k)) ∧
    (∀ (net : Nat → ReqResult) (code : String) (r : Nat),
      net r = ReqResult.err code → isTransient code = false →
      getHeaders parseURL net maxRetries initialBackoff url r
        = (Except.error (FetchError.network code), [])) := by
  refine ⟨?_, ?_, ?_⟩
  · intro net n res hn hfail hsucc
    have h := getHeaders_transient_then_ok parseURL net maxRetries initialBackoff url p hp
      n res hn hfail hsucc 0 (by omega)
    rw [Nat.sub_zero, ← List.range_eq_range'] at h
    exact h
  · intro net codes hfail
    have h := getHeaders_all_transient_err parseURL net maxRetries initialBackoff url p hp
      codes hfail 0 (by omega)
    rw [Nat.sub_zero, ← List.range_eq_range'] at h
    exact h
  · intro net code r hnet ht
    exact getHeaders_giveup parseURL net maxRetries initialBackoff url r p code hp hnet
      (by
        intro hcontra
        rw [ht] at hcontra
        exact Bool.false_ne_true hcontra.1)

/-- C3 witness: default budget 3 and initial backoff 1000ms.  Two transient
failures then success yields the response after waits 1000 and 2000; four
transient failures yield the network error after waits 1000, 2000, 4000; a
non-transient `ECONNREFUSED` yields the network error with no waits. -/
theorem C3_retry_backoff_witness :
    getHeaders (fun _ => some ⟨"https:", "h", "/", ""⟩)
      (fun k => if k < 2 then ReqResult.err "ECONNRESET" else ReqResult.ok ⟨200, none⟩)
      3 1000 "https://h/" 0 = (Except.ok ⟨200, none⟩, [1000, 2000]) ∧
    getHeaders (fun _ => some ⟨"https:", "h", "/", ""⟩)
      (fun _ => ReqResult.err "ENOMEM")
      3 1000 "https://h/" 0
      = (Except.error (FetchError.network "ENOMEM"), [1000, 2000, 4000]) ∧
    getHeaders (fun _ => some ⟨"https:", "h", "/", ""⟩)
      (fun _ => ReqResult.err "ECONNREFUSED")
      3 1000 "https://h/" 0
      = (Except.error (FetchError.network "ECONNREFUSED"), []) := by
  refine ⟨?_, ?_, ?_⟩
  · have h := (C3_retry_backoff (fun _ => some ⟨"https:", "h", "/", ""⟩) "https://h/"
        ⟨"https:", "h", "/", ""⟩ rfl 3 1000).1
      (fun k => if k < 2 then ReqResult.err "ECONNRESET" else ReqResult.ok ⟨200, none⟩)
      2 ⟨200, none⟩ (by omega)
      (fun k hk => ⟨"ECONNRESET", by simp [hk], by decide⟩)
      (by simp)
    simpa using h
  · have h := (C3_retry_backoff (fun _ => some ⟨"https:", "h", "/", ""⟩) "https://h/"
        ⟨"https:", "h", "/", ""⟩ rfl 3 1000).2.1
      (fun _ => ReqResult.err "ENOMEM") (fun _ => "ENOMEM")
      (fun k _ => ⟨rfl, by show isTransient "ENOMEM" = true; decide⟩)
    simpa using h
  · exact (C3_retry_backoff (fun _ => some ⟨"https:", "h", "/", ""⟩) "https://h/"
      ⟨"https:", "h", "/", ""⟩ rfl 3 1000).2.2
      (fun _ => ReqResult.err "ECONNREFUSED") "ECONNREFUSED" 0 rfl (by decide)

/-- C1 auxiliary: the spec's four conditions, stated on the policy's inputs. -/
def validConditions (currentUrl targetUrl : String) (redirectsList : List RedirectHop)
    (redirectCount : Nat) (finalStatusCode : Nat) : Prop :=
  currentUrl = targetUrl ∧
  redirectCount = 1 ∧
  (∃ hop, redirectsList.head? = some hop ∧ (hop.code = 301 ∨ hop.code = 308)) ∧
  finalStatusCode = 200

instance (c t : String) (l : List RedirectHop) (n k : Nat) :
    Decidable (validConditions c t l n k) := by
  unfold validConditions
  infer_instance

/-- Unfolding: from the initial state, a fetch of `src` that reports a
`Location` moves `check` to the corresponding redirect state. -/
theorem check_none_step (fetch : String → Except FetchError HopResult)
    (src dw : String) (maxR : Nat) (lst : List RedirectHop) (cnt : Nat)
    (c : Nat) (l : String) (hf : fetch src = Except.ok ⟨c, some l⟩) :
    check fetch src dw maxR none lst cnt
      = check fetch src dw maxR (some ⟨l, c⟩) lst cnt := by
  rw [check.eq_1]
  simp only [hf]

/-- Unfolding: from the initial state, a failing fetch of `src` rejects with
the fetch error. -/
theorem check_none_error (fetch : String → Except FetchError HopResult)
    (src dw : String) (maxR : Nat) (lst : List RedirectHop) (cnt : Nat)
    (e : FetchError) (hf : fetch src = Except.error e) :
    check fetch src dw maxR none lst cnt = Except.error e := by
  rw [check.eq_1]
  simp only [hf]

/-- Unfolding: from a redirect state below the hop limit, a fetch of the
previous `Location` that reports another `Location` moves `check` onward,
pushing the previous hop and incrementing the count. -/
theorem check_some_step (fetch : String → Except FetchError HopResult)
    (src dw : String) (maxR : Nat) (prev : RedirectHop) (lst : List RedirectHop)
    (cnt : Nat) (hlt : cnt + 1 < maxR) (c : Nat) (l : String)
    (hf : fetch prev.location = Except.ok ⟨c, some l⟩) :
    check fetch src dw maxR (some prev) lst cnt
      = check fetch src dw maxR (some ⟨l, c⟩) (lst ++ [prev]) (cnt + 1) := by
  conv_lhs => rw [check.eq_2]
  simp only [hf]
  rw [dif_neg (by omega)]

/-- Unfolding: a redirect state whose incremented count reaches the hop limit
resolves immediately with `is_valid = false`, without any further fetch. -/
theorem check_some_stop (fetch : String → Except FetchError HopResult)
    (src dw : String) (maxR : Nat) (prev : RedirectHop) (lst : List RedirectHop)
    (cnt : Nat) (hge : cnt + 1 ≥ maxR) :
    check fetch src dw maxR (some prev) lst cnt
      = Except.ok ⟨prev.code, src, dw, prev.location, cnt + 1, lst ++ [prev], false⟩ := by
  rw [check.eq_2]
  rw [dif_pos (by omega)]

/-- Hop-limit path of `check`: if every fetched response carries a `Location`
header, then from any reached redirect state (`some prev`, `lst`, `cnt`) with
`cnt < maxR`, the resolver resolves with `is_valid = false`, a counter of
exactly `maxR`, a chain of length `maxR` whose entries all satisfy an invariant
`P` preserved by `fetch`, and a final `code`/`dest_actual` taken from the last
chain entry. -/
theorem check_limit_aux (fetch : String → Except FetchError HopResult)
    (src dw : String) (maxR : Nat)
    (hredir : ∀ u, ∃ c l, fetch u = Except.ok ⟨c, some l⟩)
    (P : RedirectHop → Prop)
    (hP : ∀ u c l, fetch u = Except.ok ⟨c, some l⟩ → P ⟨l, c⟩) :
    ∀ (k cnt : Nat) (prev : RedirectHop) (lst : List RedirectHop),
      maxR = cnt + k + 1 → lst.length = cnt → P prev → (∀ hop ∈ lst, P hop) →
      ∃ o rest last,
        check fetch src dw maxR (some prev) lst cnt = Except.ok o ∧
        o.is_valid = false ∧
        o.redirectCounter = maxR ∧
        o.redirectsList.length = maxR ∧
        (∀ hop ∈ o.redirectsList, P hop) ∧
        o.redirectsList = rest ++ [last] ∧
        o.code = last.code ∧ o.dest_actual = last.location := by
  intro k
  induction k with
  | zero =>
    intro cnt prev lst hmax hlen hPp hPl
    refine ⟨⟨prev.code, src, dw, prev.location, cnt + 1, lst ++ [prev], false⟩,
      lst, prev, check_some_stop fetch src dw maxR prev lst cnt (by omega),
      rfl, ?_, ?_, ?_, rfl, rfl, rfl⟩
    · show cnt + 1 = maxR
      omega
    · show (lst ++ [prev]).length = maxR
      simp [hlen]
      omega
    · show ∀ hop ∈ lst ++ [prev], P hop
      intro hop hhop
      rcases List.mem_append.mp hhop with h | h
      · exact hPl hop h
      · rw [List.mem_singleton.mp h]
        exact hPp
  | succ k ih =>
    intro cnt prev lst hmax hlen hPp hPl
    obtain ⟨c, l, hf⟩ := hredir prev.location
    obtain ⟨o, rest, last, ho, h1, h2, h3, h4, h5, h6, h7⟩ :=
      ih (cnt + 1) ⟨l, c⟩ (lst ++ [prev]) (by omega) (by simp [hlen])
        (hP _ _ _ hf)
        (by
          intro hop hhop
          rcases List.mem_append.mp hhop with h | h
          · exact hPl hop h
          · rw [List.mem_singleton.mp h]
            exact hPp)
    refine ⟨o, rest, last, ?_, h1, h2, h3, h4, h5, h6, h7⟩
    rw [check_some_step fetch src dw maxR prev lst cnt (by omega) c l hf]
    exact ho

end RedirectChecker

namespace RedirectChecker

/-- C7: an unparseable URL makes `getHeaders` reject immediately with the
parse failure: the result does not depend on the network oracle at all (no
request is issued), the backoff trace is empty (no retry, no wait), and a
fetch rejection propagates out of the resolver `checkURL` as a failure of that
pair. -/
theorem C7_malformed_fails_fast
    (parseURL : String → Option ParsedURL) (url : String)
    (hbad : parseURL url = none) :
    (∀ (net net' : Nat → ReqResult) (maxRetries initialBackoff r r' : Nat),
      getHeaders parseURL net maxRetries initialBackoff url r
        = (Except.error FetchError.malformed, []) ∧
      getHeaders parseURL net maxRetries initialBackoff url r
        = getHeaders parseURL net' maxRetries initialBackoff url r') ∧
    (∀ (fetch : String → Except FetchError HopResult) (src dw : String)
        (maxR : Nat) (e : FetchError), fetch src = Except.error e →
      checkURL fetch src dw maxR = Except.error e) := by
  constructor
  · intro net net' maxRetries initialBackoff r r'
    constructor
    · exact getHeaders_parse_fail parseURL net maxRetries initialBackoff url r hbad
    · rw [getHeaders_parse_fail parseURL net maxRetries initialBackoff url r hbad,
        getHeaders_parse_fail parseURL net' maxRetries initialBackoff url r' hbad]
  · intro fetch src dw maxR e hf
    show check fetch src dw maxR none [] 0 = Except.error e
    exact check_none_error fetch src dw maxR [] 0 e hf

/-- C7 witness: a parse oracle that rejects the malformed URL `"ht!tp:"`;
the fetcher rejects identically under two different network oracles with no
backoff, and the resolver propagates the malformed-URL rejection. -/
theorem C7_malformed_fails_fast_witness :
    getHeaders (fun _ => none) (fun _ => ReqResult.err "ECONNRESET") 3 1000 "ht!tp:" 0
      = (Except.error FetchError.malformed, []) ∧
    getHeaders (fun _ => none) (fun _ => ReqResult.err "ECONNRESET") 3 1000 "ht!tp:" 0
      = getHeaders (fun _ => none) (fun _ => ReqResult.ok ⟨200, none⟩) 3 1000 "ht!tp:" 5 ∧
    checkURL (fun _ => Except.error FetchError.malformed) "ht!tp:" "https://d/" 3
      = Except.error FetchError.malformed := by
  have h := C7_malformed_fails_fast (fun _ => none) "ht!tp:" rfl
  exact ⟨(h.1 (fun _ => ReqResult.err "ECONNRESET") (fun _ => ReqResult.ok ⟨200, none⟩)
      3 1000 0 5).1,
    (h.1 (fun _ => ReqResult.err "ECONNRESET") (fun _ => ReqResult.ok ⟨200, none⟩)
      3 1000 0 5).2,
    h.2 (fun _ => Except.error FetchError.malformed) "ht!tp:" "https://d/" 3
      FetchError.malformed rfl⟩

/-- C2: if every fetched response keeps carrying a `Location` header, the
resolver terminates once the hop count reaches `maxRedirections` (for any
positive limit, in particular the default 3): it resolves — it does not loop
or reject — with `is_valid = false` and `redirectCounter` exactly equal to the
limit. -/
theorem C2_hop_limit_truncation
    (fetch : String → Except FetchError HopResult) (src dw : String) (maxR : Nat)
    (hredir : ∀ u, ∃ c l, fetch u = Except.ok ⟨c, some l⟩) (hmax : 1 ≤ maxR) :
    ∃ o, checkURL fetch src dw maxR = Except.ok o ∧
      o.is_valid = false ∧ o.redirectCounter = maxR := by
  obtain ⟨c, l, hf⟩ := hredir src
  obtain ⟨o, rest, last, ho, h1, h2, _, _, _, _, _⟩ :=
    check_limit_aux fetch src dw maxR hredir (fun _ => True) (fun _ _ _ _ => trivial)
      (maxR - 1) 0 ⟨l, c⟩ [] (by omega) rfl trivial (by simp)
  refine ⟨o, ?_, h1, h2⟩
  show check fetch src dw maxR none [] 0 = Except.ok o
  rw [check_none_step fetch src dw maxR [] 0 c l hf]
  exact ho

/-- C2 witness: a fetch oracle that always answers 301 with a `Location`
header, at the default limit 3. -/
theorem C2_hop_limit_truncation_witness :
    ∃ o, checkURL (fun _ => Except.ok ⟨301, some "https://x/loop"⟩)
        "https://s/a" "https://d/b" 3 = Except.ok o ∧
      o.is_valid = false ∧ o.redirectCounter = 3 :=
  C2_hop_limit_truncation _ "https://s/a" "https://d/b" 3
    (fun _ => ⟨301, "https://x/loop", rfl⟩) (by omega)

/-- C10: when the resolver terminates at the hop limit (every response a 3xx
redirect carrying a `Location`), the emitted outcome's `code` is the status
code of the last followed hop — a 3xx value, never a terminal 200 — its
`dest_actual` is that hop's `Location` value, and its chain length equals its
`redirectCounter`. -/
theorem C10_truncation_outcome_fields
    (fetch : String → Except FetchError HopResult) (src dw : String) (maxR : Nat)
    (hredir : ∀ u, ∃ c l, fetch u = Except.ok ⟨c, some l⟩ ∧ 300 ≤ c ∧ c ≤ 399)
    (hmax : 1 ≤ maxR) :
    ∃ o rest last, checkURL fetch src dw maxR = Except.ok o ∧
      o.redirectsList = rest ++ [last] ∧
      o.code = last.code ∧ 300 ≤ o.code ∧ o.code ≤ 399 ∧ o.code ≠ 200 ∧
      o.dest_actual = last.location ∧
      o.redirectsList.length = o.redirectCounter := by
  have hredir' : ∀ u, ∃ c l, fetch u = Except.ok ⟨c, some l⟩ := by
    intro u
    obtain ⟨c, l, hf, -, -⟩ := hredir u
    exact ⟨c, l, hf⟩
  have hP : ∀ u c l, fetch u = Except.ok ⟨c, some l⟩ →
      (fun hop : RedirectHop => 300 ≤ hop.code ∧ hop.code ≤ 399) ⟨l, c⟩ := by
    intro u c l hf
    obtain ⟨c₀, l₀, hf₀, hlo, hhi⟩ := hredir u
    have : (⟨c, some l⟩ : HopResult) = ⟨c₀, some l₀⟩ := by
      have := hf.symm.trans hf₀
      exact Except.ok.inj this
    cases this
    exact ⟨hlo, hhi⟩
  obtain ⟨c, l, hf, hlo, hhi⟩ := hredir src
  obtain ⟨o, rest, last, ho, h1, h2, h3, h4, h5, h6, h7⟩ :=
    check_limit_aux fetch src dw maxR hredir'
      (fun hop => 300 ≤ hop.code ∧ hop.code ≤ 399) hP
      (maxR - 1) 0 ⟨l, c⟩ [] (by omega) rfl ⟨hlo, hhi⟩ (by simp)
  have hlast : 300 ≤ last.code ∧ last.code ≤ 399 :=
    h4 last (by rw [h5]; exact List.mem_append.mpr (Or.inr (List.mem_singleton.mpr rfl)))
  refine ⟨o, rest, last, ?_, h5, h6, ?_, ?_, ?_, h7, ?_⟩
  · show check fetch src dw maxR none [] 0 = Except.ok o
    rw [check_none_step fetch src dw maxR [] 0 c l hf]
    exact ho
  · rw [h6]; exact hlast.1
  · rw [h6]; exact hlast.2
  · rw [h6]; omega
  · rw [h3, h2]

/-- C10 witness: always-308 oracle at the default limit 3. -/
theorem C10_truncation_outcome_fields_witness :
    ∃ o rest last,
      checkURL (fun _ => Except.ok ⟨308, some "https://x/next"⟩)
        "https://s/a" "https://d/b" 3 = Except.ok o ∧
      o.redirectsList = rest ++ [last] ∧
      o.code = last.code ∧ 300 ≤ o.code ∧ o.code ≤ 399 ∧ o.code ≠ 200 ∧
      o.dest_actual = last.location ∧
      o.redirectsList.length = o.redirectCounter :=
  C10_truncation_outcome_fields _ "https://s/a" "https://d/b" 3
    (fun _ => ⟨308, "https://x/next", rfl, by omega, by omega⟩) (by omega)

end RedirectChecker

namespace RedirectChecker

/-- C1: `isRedirectValid` returns `true` iff all four conditions hold
simultaneously (exact final-URL match, exactly one hop, first hop code 301 or
308, final status 200); moreover each single-condition negation from the spec
(wrong final URL; hopCount 0; hopCount 2; first hop code 302; final status 204)
yields `false` while the others hold. -/
theorem C1_isRedirectValid_iff :
    (∀ (currentUrl targetUrl : String) (redirectsList : List RedirectHop)
        (redirectCount finalStatusCode : Nat),
      isRedirectValid currentUrl targetUrl redirectsList redirectCount finalStatusCode = true ↔
        validConditions currentUrl targetUrl redirectsList redirectCount finalStatusCode) ∧
    isRedirectValid "https://a/new" "https://a/new" [⟨"https://a/new", 301⟩] 1 200 = true ∧
    isRedirectValid "https://a/other" "https://a/new" [⟨"https://a/other", 301⟩] 1 200 = false ∧
    isRedirectValid "https://a/new" "https://a/new" [] 0 200 = false ∧
    isRedirectValid "https://a/new" "https://a/new"
      [⟨"https://a/mid", 301⟩, ⟨"https://a/new", 301⟩] 2 200 = false ∧
    isRedirectValid "https://a/new" "https://a/new" [⟨"https://a/new", 302⟩] 1 200 = false ∧
    isRedirectValid "https://a/new" "https://a/new" [⟨"https://a/new", 308⟩] 1 204 = false := by
  refine ⟨?_, by decide, by decide, by decide, by decide, by decide, by decide⟩
  intro currentUrl targetUrl redirectsList redirectCount finalStatusCode
  unfold isRedirectValid validConditions PERMANENT_REDIRECT
  cases redirectsList with
  | nil => simp
  | cons hop rest => simp [List.head?]; tauto

end RedirectChecker

namespace RedirectChecker

/-- A parsed CSV row: the cells of the `src` and `destination` columns,
`none` when the column is absent in that row. -/
structure Row where
  src : Option String
  destination : Option String
  deriving Repr, DecidableEq

/-- JavaScript truthiness of a CSV cell (`!sourceUrl` is true exactly when the
cell is absent or the empty string). -/
def truthy : Option String → Bool
  | none => false
  | some s => decide (s ≠ "")

/-- The mutable `report.result` object. -/
structure Summary where
  valid : Nat
  invalid : Nat
  total : Nat
  deriving Repr, DecidableEq

/-- The mutable `report` object threaded through `processUrls`. -/
structure Report where
  result : Summary
  urls : List Outcome
  deriving Repr, DecidableEq

/-- The three report updates performed when a resolution settles:
`report.result.total++`, then `valid++` or `invalid++` according to
`parsedURL.is_valid`, then `report.urls.push(parsedURL)`.  They happen with no
suspension point in between, hence as one atomic step of the model. -/
def recordOutcome (report : Report) (parsedURL : Outcome) : Report :=
  { result :=
      { total := report.result.total + 1
        valid := report.result.valid + (if parsedURL.is_valid then 1 else 0)
        invalid := report.result.invalid + (if parsedURL.is_valid then 0 else 1) }
    urls := report.urls ++ [parsedURL] }

/-- The body of `chunk.map(async (item) => …)` for one row: skip the row when
either cell is falsy (no fetch, no update), otherwise resolve the pair; a
rejected resolution (the `res` oracle returns an error) makes the async
callback reject before any report update, so it leaves the report unchanged. -/
def processItem (res : String → String → Except FetchError Outcome)
    (report : Report) (item : Row) : Report :=
  match item.src, item.destination with
  | some sourceUrl, some destinationUrl =>
    if sourceUrl = "" ∨ destinationUrl = "" then report
    else
      match res sourceUrl destinationUrl with
      | Except.ok parsedURL => recordOutcome report parsedURL
      | Except.error _ => report
  | _, _ => report

/-- One window of `Promise.all(chunk.map(...))`, with the per-chunk `catch`:
every callback of the window runs to completion independently, so the window's
net effect on the report is the fold of the per-item effects (a rejection is
caught at the window level and aborts nothing). -/
def processChunk (res : String → String → Except FetchError Outcome)
    (report : Report) (chunk : List Row) : Report :=
  chunk.foldl (processItem res) report

/-- The slicing loop `for (let i = 0; i < data.length; i += CHUNK_SIZE)`:
consecutive windows of `n` rows (for `n ≥ 1`; the last may be shorter). -/
def chunks (n : Nat) : List Row → List (List Row)
  | [] => []
  | x :: xs => (x :: xs.take (n - 1)) :: chunks n (xs.drop (n - 1))
termination_by l => l.length
decreasing_by
  simp
  omega

/-- `processUrls(data, report)`: fold the windows in order (chunk `N+1` starts
only after chunk `N`'s resolutions have all been folded in). -/
def processUrls (res : String → String → Except FetchError Outcome)
    (data : List Row) (report : Report) : Report :=
  (chunks CHUNK_SIZE data).foldl (processChunk res) report

/-- `getData`: each parsed row is pushed to `results` (rows with missing
required columns are only warned about); the promise rejects iff `results` is
empty at end of stream. -/
def getData (rows : List Row) : Except String (List Row) :=
  if rows.isEmpty then Except.error "No data found in CSV file" else Except.ok rows

/-- The rows `getData` warns about (`!data[src] || !data[destination]`);
they are warned, not removed. -/
def getDataWarnings (rows : List Row) : List Row :=
  rows.filter fun data => !(truthy data.src && truthy data.destination)

/-- Exit status of the main IIFE as a function of the parsed rows: a
rejection of `getData` reaches the top-level catch, which calls
`process.exit(1)`; otherwise the run proceeds and the process ends normally
(status 0).  Per-pair resolution errors are caught inside `processUrls` and
never reach the top-level catch. -/
def mainExitCode (rows : List Row) : Nat :=
  match getData rows with
  | Except.error _ => 1
  | Except.ok _ => 0

/-- One entry of the formatted url list: the outcome spread together with the
added `status` emoji field. -/
structure FormattedUrl where
  url : Outcome
  status : String
  deriving Repr, DecidableEq

/-- The comparator of the final `.sort`, as a boolean "less or equal":
when validities differ the invalid entry comes first (`a.is_valid ? 1 : -1`),
ties are broken by ascending string order of `source` (`localeCompare`). -/
def urlLE (a b : FormattedUrl) : Bool :=
  if a.url.is_valid ≠ b.url.is_valid then !a.url.is_valid
  else decide (a.url.source ≤ b.url.source)

/-- The `formattedUrls` computation of `main`: annotate each outcome with its
status emoji, then sort with the comparator. -/
def formatUrls (urls : List Outcome) : List FormattedUrl :=
  (urls.map fun url => ⟨url, if url.is_valid then "✅" else "❌"⟩).mergeSort urlLE

end RedirectChecker

namespace RedirectChecker

/-- Unfolding: no rows, no windows. -/
theorem chunks_nil (n : Nat) : chunks n [] = [] := by
  unfold chunks
  rfl

/-- Unfolding: a nonempty list yields its first window followed by the
windows of the rest. -/
theorem chunks_cons (n : Nat) (x : Row) (xs : List Row) :
    chunks n (x :: xs) = (x :: xs.take (n - 1)) :: chunks n (xs.drop (n - 1)) := by
  rw [chunks.eq_2]

/-- The windows of a positive window size concatenate back to the input. -/
theorem chunks_flatten (n : Nat) (_hn : 1 ≤ n) (l : List Row) :
    (chunks n l).flatten = l := by
  suffices key : ∀ (m : Nat) (l : List Row), l.length ≤ m → (chunks n l).flatten = l from
    key l.length l le_rfl
  intro m
  induction m with
  | zero =>
    intro l hl
    have : l = [] := List.eq_nil_of_length_eq_zero (by omega)
    subst this
    simp [chunks_nil]
  | succ m ih =>
    intro l hl
    cases l with
    | nil => simp [chunks_nil]
    | cons x xs =>
      rw [chunks_cons, List.flatten_cons, ih (xs.drop (n - 1)) (by simp at hl ⊢; omega)]
      simp [List.take_append_drop]

/-- Folding window-by-window is folding row-by-row over the concatenation. -/
theorem processUrls_eq_foldl (res : String → String → Except FetchError Outcome)
    (data : List Row) (report : Report) :
    processUrls res data report = data.foldl (processItem res) report := by
  unfold processUrls processChunk
  rw [← List.foldl_flatten, chunks_flatten CHUNK_SIZE (by decide) data]

/-- A row with a falsy cell is skipped: the report is returned unchanged. -/
theorem processItem_skip (res : String → String → Except FetchError Outcome)
    (report : Report) (item : Row)
    (h : truthy item.src = false ∨ truthy item.destination = false) :
    processItem res report item = report := by
  obtain ⟨os, od⟩ := item
  cases os with
  | none => cases od with
    | none => rfl
    | some d => rfl
  | some s =>
    cases od with
    | none => rfl
    | some d =>
      simp [truthy] at h
      simp [processItem, h]

/-- A row whose resolution rejects leaves the report unchanged (the rejection
happens before any report update). -/
theorem processItem_error (res : String → String → Except FetchError Outcome)
    (report : Report) (s d : String) (e : FetchError)
    (h : res s d = Except.error e) :
    processItem res report ⟨some s, some d⟩ = report := by
  simp only [processItem]
  split
  · rfl
  · rw [h]

/-- The Report invariant: `summary.total == summary.valid + summary.invalid
== len(outcomes)`. -/
def reportInv (report : Report) : Prop :=
  report.result.total = report.result.valid + report.result.invalid ∧
  report.result.total = report.urls.length

instance (report : Report) : Decidable (reportInv report) := by
  unfold reportInv
  infer_instance

/-- Recording one settled resolution preserves the invariant. -/
theorem reportInv_recordOutcome (report : Report) (o : Outcome)
    (h : reportInv report) : reportInv (recordOutcome report o) := by
  obtain ⟨h1, h2⟩ := h
  unfold reportInv recordOutcome
  cases hv : o.is_valid <;> simp <;> omega

/-- Processing one row preserves the invariant. -/
theorem reportInv_processItem (res : String → String → Except FetchError Outcome)
    (report : Report) (item : Row) (h : reportInv report) :
    reportInv (processItem res report item) := by
  obtain ⟨os, od⟩ := item
  cases os with
  | none => cases od with
    | none => exact h
    | some d => exact h
  | some s =>
    cases od with
    | none => exact h
    | some d =>
      simp only [processItem]
      split
      · exact h
      · split
        · exact reportInv_recordOutcome report _ h
        · exact h

/-- Folding any row sequence preserves the invariant. -/
theorem reportInv_foldl (res : String → String → Except FetchError Outcome)
    (data : List Row) :
    ∀ report : Report, reportInv report →
      reportInv (data.foldl (processItem res) report) := by
  induction data with
  | nil => intro r h; exact h
  | cons item rest ih =>
    intro r h
    rw [List.foldl_cons]
    exact ih _ (reportInv_processItem res r item h)

end RedirectChecker

namespace RedirectChecker

/-- C4: the report invariant `summary.total == summary.valid + summary.invalid
== len(outcomes)` holds at every observable point: recording one settled
resolution preserves it (the three updates form one atomic step, with no
suspension point between them), processing any single row preserves it,
processing any row sequence from an invariant state preserves it, and it holds
for the whole run started from the fresh report. -/
theorem C4_summary_invariant :
    (∀ (report : Report) (o : Outcome),
      reportInv report → reportInv (recordOutcome report o)) ∧
    (∀ (res : String → String → Except FetchError Outcome) (report : Report)
        (item : Row), reportInv report → reportInv (processItem res report item)) ∧
    (∀ (res : String → String → Except FetchError Outcome) (data : List Row)
        (report : Report), reportInv report → reportInv (processUrls res data report)) ∧
    (∀ (res : String → String → Except FetchError Outcome) (data : List Row),
      reportInv (processUrls res data ⟨⟨0, 0, 0⟩, []⟩)) := by
  refine ⟨reportInv_recordOutcome, reportInv_processItem, ?_, ?_⟩
  · intro res data report h
    rw [processUrls_eq_foldl]
    exact reportInv_foldl res data report h
  · intro res data
    rw [processUrls_eq_foldl]
    exact reportInv_foldl res data _ ⟨rfl, rfl⟩

/-- C4 witness: a two-row batch (one resolving valid, one skipped) from the
fresh report keeps the invariant. -/
theorem C4_summary_invariant_witness :
    reportInv (processUrls
      (fun s d => Except.ok ⟨200, s, d, d, 1, [⟨d, 301⟩], true⟩)
      [⟨some "http://a/old", some "https://a/new"⟩, ⟨some "", some "https://b/new"⟩]
      ⟨⟨0, 0, 0⟩, []⟩) :=
  C4_summary_invariant.2.2.1
    (fun s d => Except.ok ⟨200, s, d, d, 1, [⟨d, 301⟩], true⟩)
    [⟨some "http://a/old", some "https://a/new"⟩, ⟨some "", some "https://b/new"⟩]
    ⟨⟨0, 0, 0⟩, []⟩ ⟨rfl, rfl⟩

/-- Auxiliary for C5: every window produced by `chunks` is nonempty and no
longer than the window size. -/
theorem chunks_mem_length (n : Nat) (hn : 1 ≤ n) :
    ∀ (l : List Row) (c : List Row), c ∈ chunks n l → c ≠ [] ∧ c.length ≤ n := by
  suffices key : ∀ (m : Nat) (l : List Row), l.length ≤ m →
      ∀ c ∈ chunks n l, c ≠ [] ∧ c.length ≤ n by
    intro l c
    exact key l.length l le_rfl c
  intro m
  induction m with
  | zero =>
    intro l hl c hc
    have : l = [] := List.eq_nil_of_length_eq_zero (by omega)
    subst this
    rw [chunks_nil] at hc
    cases hc
  | succ m ih =>
    intro l hl c hc
    cases l with
    | nil =>
      rw [chunks_nil] at hc
      cases hc
    | cons x xs =>
      rw [chunks_cons] at hc
      rcases List.mem_cons.mp hc with h | h
      · subst h
        refine ⟨by simp, ?_⟩
        simp
        omega
      · exact ih (xs.drop (n - 1)) (by simp at hl ⊢; omega) c h

/-- Auxiliary for C5: every window except possibly the last has exactly the
window size. -/
theorem chunks_dropLast_length (n : Nat) (hn : 1 ≤ n) :
    ∀ (l : List Row) (c : List Row), c ∈ (chunks n l).dropLast → c.length = n := by
  suffices key : ∀ (m : Nat) (l : List Row), l.length ≤ m →
      ∀ c ∈ (chunks n l).dropLast, c.length = n by
    intro l c
    exact key l.length l le_rfl c
  intro m
  induction m with
  | zero =>
    intro l hl c hc
    have : l = [] := List.eq_nil_of_length_eq_zero (by omega)
    subst this
    rw [chunks_nil] at hc
    cases hc
  | succ m ih =>
    intro l hl c hc
    cases l with
    | nil =>
      rw [chunks_nil] at hc
      cases hc
    | cons x xs =>
      rw [chunks_cons] at hc
      cases hrest : chunks n (xs.drop (n - 1)) with
      | nil =>
        rw [hrest] at hc
        cases hc
      | cons r rs =>
        rw [hrest] at hc
        rw [List.dropLast_cons₂] at hc
        rcases List.mem_cons.mp hc with h | h
        · subst h
          have hdrop : xs.drop (n - 1) ≠ [] := by
            intro hd
            rw [hd, chunks_nil] at hrest
            cases hrest
          have hxs : n - 1 < xs.length := by
            by_contra hcon
            exact hdrop (List.drop_eq_nil_of_le (by omega))
          simp
          omega
        · rw [← hrest] at h
          exact ih (xs.drop (n - 1)) (by simp at hl ⊢; omega) c h

/-- C5: the scheduler partitions the input into consecutive windows of the
chunk size — the windows concatenate back to the input in order, every window
is nonempty of length at most the chunk size, and every window except possibly
the last has exactly the chunk size — and a row whose resolution rejects
contributes nothing: the run's result equals the run on the input with that
row removed, so neither its window's siblings nor the following windows are
affected. -/
theorem C5_chunked_execution :
    (∀ (n : Nat), 1 ≤ n → ∀ (data : List Row), (chunks n data).flatten = data) ∧
    (∀ (n : Nat), 1 ≤ n → ∀ (data c : List Row),
      c ∈ chunks n data → c ≠ [] ∧ c.length ≤ n) ∧
    (∀ (n : Nat), 1 ≤ n → ∀ (data c : List Row),
      c ∈ (chunks n data).dropLast → c.length = n) ∧
    (∀ (res : String → String → Except FetchError Outcome) (e : FetchError)
        (s d : String) (pre post : List Row) (report : Report),
      res s d = Except.error e →
      processUrls res (pre ++ ⟨some s, some d⟩ :: post) report
        = processUrls res (pre ++ post) report) := by
  refine ⟨fun n hn data => chunks_flatten n hn data,
    fun n hn data c hc => chunks_mem_length n hn data c hc,
    fun n hn data c hc => chunks_dropLast_length n hn data c hc, ?_⟩
  intro res e s d pre post report hres
  rw [processUrls_eq_foldl, processUrls_eq_foldl, List.foldl_append, List.foldl_append,
    List.foldl_cons, processItem_error res _ s d e hres]

/-- C5 witness: window size 8 on a concrete 3-row input, and a concrete
failing middle row that leaves the run's result unchanged. -/
theorem C5_chunked_execution_witness :
    (chunks 8 [⟨some "a", some "b"⟩, ⟨some "c", some "d"⟩]).flatten
      = [⟨some "a", some "b"⟩, ⟨some "c", some "d"⟩] ∧
    processUrls (fun _ _ => Except.error (FetchError.network "ECONNREFUSED"))
        ([⟨some "a", some "b"⟩] ++ ⟨some "x", some "y"⟩ :: [⟨some "c", some "d"⟩])
        ⟨⟨0, 0, 0⟩, []⟩
      = processUrls (fun _ _ => Except.error (FetchError.network "ECONNREFUSED"))
        ([⟨some "a", some "b"⟩] ++ [⟨some "c", some "d"⟩]) ⟨⟨0, 0, 0⟩, []⟩ :=
  ⟨C5_chunked_execution.1 8 (by decide) [⟨some "a", some "b"⟩, ⟨some "c", some "d"⟩],
   C5_chunked_execution.2.2.2 (fun _ _ => Except.error (FetchError.network "ECONNREFUSED"))
     (FetchError.network "ECONNREFUSED") "x" "y" [⟨some "a", some "b"⟩]
     [⟨some "c", some "d"⟩] ⟨⟨0, 0, 0⟩, []⟩ rfl⟩

/-- C8: a row with an empty or absent source or destination cell is skipped
before resolution: the report is unchanged, the resolution oracle is never
consulted (any two oracles give the same result), and within a whole run the
row contributes nothing to the counts or the outcome sequence. -/
theorem C8_skip_blank_rows :
    ∀ (res res' : String → String → Except FetchError Outcome) (report : Report)
      (item : Row),
      truthy item.src = false ∨ truthy item.destination = false →
      processItem res report item = report ∧
      processItem res report item = processItem res' report item ∧
      ∀ (pre post : List Row),
        processUrls res (pre ++ item :: post) report
          = processUrls res (pre ++ post) report := by
  intro res res' report item h
  refine ⟨processItem_skip res report item h, ?_, ?_⟩
  · rw [processItem_skip res report item h, processItem_skip res' report item h]
  · intro pre post
    rw [processUrls_eq_foldl, processUrls_eq_foldl, List.foldl_append, List.foldl_append,
      List.foldl_cons, processItem_skip res _ item h]

/-- C8 witness: a row with an empty source between two good rows is skipped
and contributes nothing to a concrete run. -/
theorem C8_skip_blank_rows_witness :
    processItem (fun s d => Except.ok ⟨200, s, d, d, 1, [⟨d, 301⟩], true⟩)
      ⟨⟨0, 0, 0⟩, []⟩ ⟨some "", some "https://b/new"⟩ = ⟨⟨0, 0, 0⟩, []⟩ ∧
    processUrls (fun s d => Except.ok ⟨200, s, d, d, 1, [⟨d, 301⟩], true⟩)
        ([⟨some "a", some "b"⟩] ++ ⟨some "", some "https://b/new"⟩ :: [⟨some "c", some "d"⟩])
        ⟨⟨0, 0, 0⟩, []⟩
      = processUrls (fun s d => Except.ok ⟨200, s, d, d, 1, [⟨d, 301⟩], true⟩)
        ([⟨some "a", some "b"⟩] ++ [⟨some "c", some "d"⟩]) ⟨⟨0, 0, 0⟩, []⟩ := by
  have h := C8_skip_blank_rows
    (fun s d => Except.ok ⟨200, s, d, d, 1, [⟨d, 301⟩], true⟩)
    (fun s d => Except.ok ⟨200, s, d, d, 1, [⟨d, 301⟩], true⟩)
    ⟨⟨0, 0, 0⟩, []⟩ ⟨some "", some "https://b/new"⟩ (Or.inl (by decide))
  exact ⟨h.1, h.2.2 [⟨some "a", some "b"⟩] [⟨some "c", some "d"⟩]⟩

end RedirectChecker

namespace RedirectChecker

/-- The `finalReport` object of `main`: the summary object is reused
unchanged, the urls are annotated and sorted. -/
structure FinalReport where
  result : Summary
  urls : List FormattedUrl
  deriving Repr, DecidableEq

/-- Build the `finalReport` from the aggregated report. -/
def mkFinalReport (report : Report) : FinalReport :=
  ⟨report.result, formatUrls report.urls⟩

/-- The sort comparator is transitive. -/
theorem urlLE_trans : ∀ a b c : FormattedUrl,
    urlLE a b = true → urlLE b c = true → urlLE a c = true := by
  intro a b c hab hbc
  unfold urlLE at hab hbc ⊢
  cases hva : a.url.is_valid <;> cases hvb : b.url.is_valid <;>
    cases hvc : c.url.is_valid <;>
    simp [hva, hvb, hvc] at hab hbc ⊢ <;>
    exact le_trans hab hbc

/-- The sort comparator is total. -/
theorem urlLE_total : ∀ a b : FormattedUrl, (urlLE a b || urlLE b a) = true := by
  intro a b
  unfold urlLE
  by_cases h : a.url.is_valid = b.url.is_valid
  · rw [if_neg (by simp [h]), if_neg (by simp [h])]
    rw [Bool.or_eq_true, decide_eq_true_eq, decide_eq_true_eq]
    exact le_total _ _
  · rw [if_pos h, if_pos (Ne.symm h)]
    cases hva : a.url.is_valid
    · simp
    · cases hvb : b.url.is_valid
      · simp
      · rw [hva, hvb] at h
        exact absurd rfl h

/-- C9: the formatted url sequence handed to the writer is a permutation of
the aggregated outcomes (same length, same number of valid entries) in which
no valid entry precedes an invalid one, entries of equal validity appear in
ascending string order of `source`, each entry carries the status emoji of its
validity, and the summary object is passed through unchanged. -/
theorem C9_report_sort (urls : List Outcome) :
    ((formatUrls urls).map FormattedUrl.url).Perm urls ∧
    (formatUrls urls).length = urls.length ∧
    ((formatUrls urls).map FormattedUrl.url).countP (fun o => o.is_valid)
      = urls.countP (fun o => o.is_valid) ∧
    List.Pairwise (fun a b : FormattedUrl =>
      a.url.is_valid = true → b.url.is_valid = true) (formatUrls urls) ∧
    List.Pairwise (fun a b : FormattedUrl =>
      a.url.is_valid = b.url.is_valid → a.url.source ≤ b.url.source) (formatUrls urls) ∧
    (∀ f ∈ formatUrls urls, f.status = if f.url.is_valid then "✅" else "❌") ∧
    (∀ report : Report, (mkFinalReport report).result = report.result) := by
  have hperm := List.mergeSort_perm
    (urls.map fun url =>
      (⟨url, if url.is_valid then "✅" else "❌"⟩ : FormattedUrl)) urlLE
  have hmap : ((formatUrls urls).map FormattedUrl.url).Perm urls := by
    have h := hperm.map FormattedUrl.url
    simpa [formatUrls, List.map_map, Function.comp_def] using h
  have hsorted : List.Pairwise (fun a b => urlLE a b = true) (formatUrls urls) :=
    List.sorted_mergeSort urlLE_trans urlLE_total _
  refine ⟨hmap, ?_, ?_, ?_, ?_, ?_, fun _ => rfl⟩
  · have := hmap.length_eq
    simpa using this
  · exact hmap.countP_eq _
  · refine hsorted.imp ?_
    intro a b hab hav
    by_contra hbv
    have hbv' : b.url.is_valid = false := by
      cases h : b.url.is_valid
      · rfl
      · exact absurd h hbv
    unfold urlLE at hab
    rw [hav, hbv'] at hab
    simp at hab
  · refine hsorted.imp ?_
    intro a b hab heq
    unfold urlLE at hab
    rw [heq] at hab
    rw [if_neg (by simp)] at hab
    exact of_decide_eq_true hab
  · intro f hf
    have hf' : f ∈ urls.map fun url =>
        (⟨url, if url.is_valid then "✅" else "❌"⟩ : FormattedUrl) := by
      unfold formatUrls at hf
      exact hperm.mem_iff.mp hf
    obtain ⟨u, -, rfl⟩ := List.mem_map.mp hf'
    rfl

end RedirectChecker

namespace RedirectChecker

/-- C6 counterexample: a CSV that parses to a single row carrying neither
required column — i.e. a file missing the required columns, with zero usable
rows — is *not* treated as fatal: `getData` resolves with the row (it only
warns), the run proceeds (the row is merely skipped, contributing nothing),
and the process exits 0, not non-zero. -/
theorem C6_missing_columns_not_fatal :
    getData [⟨none, none⟩] = Except.ok [⟨none, none⟩] ∧
    mainExitCode [⟨none, none⟩] = 0 ∧
    processUrls (fun _ _ => Except.error (FetchError.network "ECONNREFUSED"))
      [⟨none, none⟩] ⟨⟨0, 0, 0⟩, []⟩ = ⟨⟨0, 0, 0⟩, []⟩ := by
  refine ⟨rfl, rfl, ?_⟩
  rw [processUrls_eq_foldl]
  rfl

/-- C6 (amended): only a source file that parses to *zero rows* is fatal —
`getData` rejects and the process exits with status 1, before any resolution;
a file with at least one parsed row always resolves, rows missing the
required columns are merely warned about (and later skipped), and the process
exits 0. -/
theorem C6_empty_input_fatal :
    (∀ rows : List Row, rows = [] →
      getData rows = Except.error "No data found in CSV file" ∧
      mainExitCode rows = 1) ∧
    (∀ rows : List Row, rows ≠ [] →
      getData rows = Except.ok rows ∧ mainExitCode rows = 0) ∧
    (∀ row : Row, truthy row.src = false ∨ truthy row.destination = false →
      row ∈ getDataWarnings [row]) := by
  refine ⟨?_, ?_, ?_⟩
  · intro rows h
    subst h
    exact ⟨rfl, rfl⟩
  · intro rows h
    have hne : rows.isEmpty = false := by
      cases rows
      · exact absurd rfl h
      · rfl
    constructor
    · unfold getData
      rw [hne]
      rfl
    · unfold mainExitCode getData
      rw [hne]
      rfl
  · intro row h
    unfold getDataWarnings
    rw [List.mem_filter]
    refine ⟨by simp, ?_⟩
    rcases h with h | h <;> simp [h]

/-- C6 witness: the empty parse is fatal with exit 1; a one-row parse (even a
useless row) resolves with exit 0; a row with both cells absent is warned. -/
theorem C6_empty_input_fatal_witness :
    (getData ([] : List Row) = Except.error "No data found in CSV file" ∧
      mainExitCode [] = 1) ∧
    (getData [⟨none, none⟩] = Except.ok [⟨none, none⟩] ∧
      mainExitCode [⟨none, none⟩] = 0) ∧
    (⟨none, none⟩ : Row) ∈ getDataWarnings [⟨none, none⟩] :=
  ⟨C6_empty_input_fatal.1 [] rfl,
   C6_empty_input_fatal.2.1 [⟨none, none⟩] (by simp),
   C6_empty_input_fatal.2.2 ⟨none, none⟩ (Or.inl rfl)⟩

/-- C9 witness: on a concrete report with one valid and one invalid outcome,
the formatted sequence is a permutation with the invalid entry first. -/
theorem C9_report_sort_witness :
    ((formatUrls [⟨200, "https://b", "https://b2", "https://b2", 1,
        [⟨"https://b2", 302⟩], false⟩,
      ⟨200, "https://a", "https://a2", "https://a2", 1,
        [⟨"https://a2", 301⟩], true⟩]).map FormattedUrl.url).Perm
      [⟨200, "https://b", "https://b2", "https://b2", 1, [⟨"https://b2", 302⟩], false⟩,
       ⟨200, "https://a", "https://a2", "https://a2", 1, [⟨"https://a2", 301⟩], true⟩] ∧
    List.Pairwise (fun a b : FormattedUrl =>
      a.url.is_valid = true → b.url.is_valid = true)
      (formatUrls [⟨200, "https://b", "https://b2", "https://b2", 1,
          [⟨"https://b2", 302⟩], false⟩,
        ⟨200, "https://a", "https://a2", "https://a2", 1,
          [⟨"https://a2", 301⟩], true⟩]) :=
  ⟨(C9_report_sort _).1, (C9_report_sort _).2.2.2.1⟩

end RedirectChecker
